import Mathlib

/-!
Verification of the grade-sheet analysis engine of this repository
(components/StudentPerformanceApp.tsx, components/QuantitativeAnalysisSection.tsx,
components/StudentPendingActivities.tsx).

The TypeScript code is shallowly embedded: JavaScript numbers are modelled by
exact rationals (`ℚ`); `parseFloat` is modelled by an executable prefix parser
for decimal literals (sign, digits, fraction, exponent) over `ℚ`; the string
literal Infinity is treated as unparseable, since no finite rational represents
it and no analysed cell value involves it.  `String.prototype.toUpperCase`,
`trim` and `toFixed(2)` are modelled on ASCII text, which covers every grade
code and numeric cell the program manipulates.  JavaScript objects used as
string-keyed dictionaries are modelled as functions `String → Option _`,
reproducing lookup (`undefined` for absent keys) and assignment-overwrite
semantics.
-/

/-- ASCII whitespace skipped by `parseFloat` and removed by `trim`. -/
def isJsSpace (c : Char) : Bool :=
  c == ' ' || c == '\t' || c == '\n' || c == '\r' || c == '\x0b' || c == '\x0c'

/-- Model of `String.prototype.trim` on ASCII whitespace. -/
def jsTrim (s : String) : String :=
  ⟨((s.data.dropWhile isJsSpace).reverse.dropWhile isJsSpace).reverse⟩

/-- Model of `String.prototype.toUpperCase` (ASCII range). -/
def jsToUpper (s : String) : String :=
  ⟨s.data.map Char.toUpper⟩

def isAsciiDigit (c : Char) : Bool :=
  '0' ≤ c && c ≤ '9'

def digitVal (c : Char) : Nat :=
  c.toNat - '0'.toNat

def digitsToNat (ds : List Char) : Nat :=
  ds.foldl (fun n c => n * 10 + digitVal c) 0

/-- Parse an optional exponent part (`e`/`E`, optional sign, digits); returns
the exponent, or `0` when no well-formed exponent part follows (in which case
`parseFloat` leaves the value unchanged). -/
def parseExponent (cs : List Char) : Int :=
  match cs with
  | c :: rest =>
    if c == 'e' || c == 'E' then
      match rest with
      | s :: rest2 =>
        if s == '+' then
          let ds := rest2.takeWhile isAsciiDigit
          if ds.isEmpty then 0 else (digitsToNat ds : Int)
        else if s == '-' then
          let ds := rest2.takeWhile isAsciiDigit
          if ds.isEmpty then 0 else -(digitsToNat ds : Int)
        else
          let ds := rest.takeWhile isAsciiDigit
          if ds.isEmpty then 0 else (digitsToNat ds : Int)
      | [] => 0
    else 0
  | [] => 0

def tenPow (e : Int) : ℚ :=
  if 0 ≤ e then ((10 : ℚ)) ^ e.toNat else 1 / ((10 : ℚ)) ^ (-e).toNat

/-- Parse the longest prefix of `cs` that is an unsigned decimal literal
(`digits [. digits] [exp]` or `. digits [exp]`); `none` when no such prefix
exists (JavaScript `NaN`). -/
def parseUnsignedDecimal (cs : List Char) : Option ℚ :=
  let intDs := cs.takeWhile isAsciiDigit
  let rest := cs.dropWhile isAsciiDigit
  match intDs, rest with
  | [], '.' :: rest2 =>
    let fracDs := rest2.takeWhile isAsciiDigit
    if fracDs.isEmpty then none
    else
      let e := parseExponent (rest2.dropWhile isAsciiDigit)
      some ((digitsToNat fracDs : ℚ) / ((10 : ℚ)) ^ fracDs.length * tenPow e)
  | [], _ => none
  | _, _ =>
    match rest with
    | '.' :: rest2 =>
      let fracDs := rest2.takeWhile isAsciiDigit
      let e := parseExponent (rest2.dropWhile isAsciiDigit)
      some (((digitsToNat intDs : ℚ) + (digitsToNat fracDs : ℚ) / ((10 : ℚ)) ^ fracDs.length) * tenPow e)
    | _ =>
      let e := parseExponent rest
      some ((digitsToNat intDs : ℚ) * tenPow e)

/-- Model of JavaScript `parseFloat`: skip leading whitespace, optional sign,
then the longest decimal-literal prefix; `none` models `NaN`. -/
def jsParseFloat (s : String) : Option ℚ :=
  match s.data.dropWhile isJsSpace with
  | '+' :: rest => parseUnsignedDecimal rest
  | '-' :: rest => (parseUnsignedDecimal rest).map (fun v => -v)
  | rest => parseUnsignedDecimal rest

/-- Round `q * 100` to the nearest integer, ties away from zero, as
`Number.prototype.toFixed(2)` does on the exact value. -/
def roundHalfAwayDen100 (q : ℚ) : Int :=
  if q < 0 then -(((-q) * 100 + 1 / 2).floor) else ((q * 100 + 1 / 2).floor)

def pad2 (n : Nat) : String :=
  if n < 10 then "0" ++ toString n else toString n

/-- Model of `Number.prototype.toFixed(2)`. -/
def toFixed2 (q : ℚ) : String :=
  let n := roundHalfAwayDen100 q
  (if n < 0 then "-" else "") ++ toString (n.natAbs / 100) ++ "." ++ pad2 (n.natAbs % 100)

/-- Model of `parseFloat(x.toFixed(2))`: the value rounded to 2 decimals. -/
def round2 (q : ℚ) : ℚ :=
  (roundHalfAwayDen100 q : ℚ) / 100

/-- `convertGradeToNumeric` from `StudentPerformanceApp.tsx` (the same code is
duplicated verbatim in `StudentProgressChart.tsx` and
`StudentPendingActivities.tsx`): qualitative codes L/ML/NL map to 9/6/3
(case-insensitively), otherwise `parseFloat` is applied and values above 10
are rescaled by `value / 100 * 10`; unparseable input gives `none` (null). -/
def convertGradeToNumeric (grade : String) : Option ℚ :=
  let g := jsToUpper grade
  if g = "L" then some 9
  else if g = "ML" then some 6
  else if g = "NL" then some 3
  else
    match jsParseFloat g with
    | some numGrade => some (if 10 < numGrade then numGrade / 100 * 10 else numGrade)
    | none => none

/-- The local copy of `convertGradeToNumeric` in
`QuantitativeAnalysisSection.tsx`, whose default branch instead rescales
values above 9 by `value / 100 * 9`. -/
def convertGradeToNumericQAS (grade : String) : Option ℚ :=
  let g := jsToUpper grade
  if g = "L" then some 9
  else if g = "ML" then some 6
  else if g = "NL" then some 3
  else
    match jsParseFloat g with
    | some numGrade => some (if 9 < numGrade then numGrade / 100 * 9 else numGrade)
    | none => none

/-- `isQualitativeGrade` from `StudentPerformanceApp.tsx`. -/
def isQualitativeGrade (grade : String) : Bool :=
  let g := jsToUpper grade
  g == "L" || g == "ML" || g == "NL"

/-- `StudentGradeEntry` from `StudentPerformanceApp.tsx`: the stored topic and
raw grade text for one date. -/
structure StudentGradeEntry where
  topic : String
  grade : String
deriving DecidableEq

/-- `StudentSheetData`: a student record; the `grades` object is modelled as a
lookup function (absent key = `none`). -/
structure StudentSheetData where
  studentName : String
  grades : String → Option StudentGradeEntry

/-- Cell access `row[j] ? String(row[j]).trim() : ''` (missing or empty cells
give the empty string). -/
def jsCell (row : List String) (j : Nat) : String :=
  jsTrim (row.getD j "")

/-- `headers.slice(1).map(dateStr => String(dateStr || '').trim())`. -/
def headerDates (headers : List String) : List String :=
  (headers.drop 1).map jsTrim

/-- Inner loop of the first ingestion pass: column `j` has a valid grade iff
some student row holds a cell that converts to a number or is qualitative. -/
def colHasValidGrade (rows : List (List String)) (j : Nat) : Bool :=
  rows.any (fun row =>
    (convertGradeToNumeric (jsCell row j)).isSome || isQualitativeGrade (jsCell row j))

/-- One step of the first ingestion pass:
`validActivityColumns[date] = hasValidGrade` for column `k+1`. -/
def vacStep (rows : List (List String)) (dates : List String)
    (m : String → Option Bool) (k : Nat) : String → Option Bool :=
  let date := dates.getD k ""
  fun d => if d = date then some (colHasValidGrade rows (k + 1)) else m d

/-- First pass of `processXLSXSheetData`: the `validActivityColumns` object
after scanning columns `j = 1 .. headers.length - 1`. -/
def validActivityColumns (headers : List String) (rows : List (List String)) :
    String → Option Bool :=
  (List.range (headers.length - 1)).foldl (vacStep rows (headerDates headers)) (fun _ => none)

/-- One step of the second ingestion pass: store `{topic, grade}` under the
column date when `validActivityColumns[date]` is truthy. -/
def gradesStep (vac : String → Option Bool) (topics row : List String)
    (dates : List String) (m : String → Option StudentGradeEntry) (k : Nat) :
    String → Option StudentGradeEntry :=
  let date := dates.getD k ""
  if vac date = some true then
    fun d => if d = date then some ⟨jsCell topics (k + 1), jsCell row (k + 1)⟩ else m d
  else m

/-- The `studentGrades` object built for one student row by the second
ingestion pass. -/
def studentGradesFor (headers topics : List String) (vac : String → Option Bool)
    (row : List String) : String → Option StudentGradeEntry :=
  (List.range (headers.length - 1)).foldl (gradesStep vac topics row (headerDates headers))
    (fun _ => none)

/-- Second pass of `processXLSXSheetData`: one record per student row whose
trimmed name cell is non-empty. -/
def sheetRecords (grid : List (List String)) : List StudentSheetData :=
  (grid.drop 2).filterMap (fun row =>
    let studentName := jsCell row 0
    if studentName = "" then none
    else some ⟨studentName,
      studentGradesFor (grid.getD 0 []) (grid.getD 1 [])
        (validActivityColumns (grid.getD 0 []) (grid.drop 2)) row⟩)

/-- Result record of `processXLSXSheetData`. -/
structure SheetParse where
  data : List StudentSheetData
  dates : List String

/-- `processXLSXSheetData` from `StudentPerformanceApp.tsx`: throws (modelled
as `none`) when the sheet has fewer than 3 rows, otherwise returns the student
records and the extracted date axis. -/
def processXLSXSheetData (grid : List (List String)) : Option SheetParse :=
  if grid.length < 3 then none
  else some ⟨sheetRecords grid, headerDates (grid.getD 0 [])⟩

/-- `allDates.indexOf(x)`: index of the first occurrence, `-1` when absent. -/
def jsIndexOf (l : List String) (x : String) : Int :=
  match l.findIdx? (fun y => y = x) with
  | some i => (i : Int)
  | none => -1

/-- `allDates.slice(a, b)` for non-negative bounds. -/
def jsSlice (l : List String) (a b : Int) : List String :=
  (l.take b.toNat).drop a.toNat

/-- The date-range selection at the start of `performAnalysis`
(`StudentPerformanceApp.tsx`): `none` models the abort
(`setError`, `setAnalysisResults(null)`, `return`) when a selected date is
missing from the axis or the start index exceeds the end index; otherwise the
inclusive slice is filtered to dates for which some student has an entry. -/
def relevantDatesInSelectedRange (sheetData : List StudentSheetData)
    (allDates : List String) (startDate endDate : String) : Option (List String) :=
  let startIdx := jsIndexOf allDates startDate
  let endIdx := jsIndexOf allDates endDate
  if startIdx = -1 ∨ endIdx = -1 ∨ startIdx > endIdx then none
  else some ((jsSlice allDates startIdx (endIdx + 1)).filter
    (fun date => sheetData.any (fun student => (student.grades date).isSome)))

/-- The three per-student counters of the `performAnalysis` student loop. -/
structure ProjectionAccum where
  totalGradesForProjection : ℚ
  missingActivitiesCount : Nat
  studentActivitiesCount : Nat
deriving DecidableEq

/-- One step of the `performAnalysis` student loop for one selected date:
a present entry is counted; an interpretable grade adds its numeric value,
an uninterpretable one adds the fixed fallback 3 and counts as missing. -/
def projectionStep (student : StudentSheetData) (acc : ProjectionAccum)
    (date : String) : ProjectionAccum :=
  match student.grades date with
  | none => acc
  | some activity =>
    match convertGradeToNumeric activity.grade with
    | some numericGrade =>
      { acc with
        studentActivitiesCount := acc.studentActivitiesCount + 1,
        totalGradesForProjection := acc.totalGradesForProjection + numericGrade }
    | none =>
      { acc with
        studentActivitiesCount := acc.studentActivitiesCount + 1,
        missingActivitiesCount := acc.missingActivitiesCount + 1,
        totalGradesForProjection := acc.totalGradesForProjection + 3 }

/-- The counters after iterating all selected dates for one student. -/
def studentStats (student : StudentSheetData) (dates : List String) : ProjectionAccum :=
  dates.foldl (projectionStep student) ⟨0, 0, 0⟩

/-- `currentAverageIncludingPending`: `sum / count`, or `0` with no counted
activities. -/
def currentAverageIncludingPending (student : StudentSheetData)
    (dates : List String) : ℚ :=
  let st := studentStats student dates
  if 0 < st.studentActivitiesCount then
    st.totalGradesForProjection / (st.studentActivitiesCount : ℚ)
  else 0

/-- The stored `currentAverage` string: the projection average via
`toFixed(2)`. -/
def currentAverageStr (student : StudentSheetData) (dates : List String) : String :=
  toFixed2 (currentAverageIncludingPending student dates)

/-- `StudentAtRisk` from `StudentPerformanceApp.tsx`. -/
structure StudentAtRisk where
  name : String
  projectedAverage : String
  missing : Nat
  details : List String
deriving DecidableEq

/-- The at-risk `details` list: one `"topic (date)"` string per selected date
whose entry is present but uninterpretable. -/
def atRiskDetails (student : StudentSheetData) (dates : List String) : List String :=
  (dates.filter (fun date =>
      match student.grades date with
      | some a => (convertGradeToNumeric a.grade).isNone
      | none => false)).map (fun date =>
    (match student.grades date with
     | some a => a.topic
     | none => "") ++ " (" ++ date ++ ")")

/-- The `studentsAtRisk` list accumulated by `performAnalysis`: a student is
appended iff the projection average is below 5 and at least one activity was
counted. -/
def studentsAtRisk (sheetData : List StudentSheetData) (dates : List String) :
    List StudentAtRisk :=
  sheetData.filterMap (fun student =>
    let st := studentStats student dates
    let avg := currentAverageIncludingPending student dates
    if avg < 5 ∧ 0 < st.studentActivitiesCount then
      some ⟨student.studentName, toFixed2 avg, st.missingActivitiesCount,
        atRiskDetails student dates⟩
    else none)

/-- `ChartDataPoint` (per-student series): normalized grade rounded to two
decimals, or null. -/
structure ChartDataPoint where
  date : String
  grade : Option ℚ
deriving DecidableEq

/-- `currentStudentChartData`: one point per selected date with an entry. -/
def currentStudentChartData (student : StudentSheetData) (dates : List String) :
    List ChartDataPoint :=
  dates.filterMap (fun date =>
    (student.grades date).map (fun a =>
      ⟨date, (convertGradeToNumeric a.grade).map round2⟩))

/-- The best-student accumulator of `performAnalysis`
(`bestStudentName`, `highestAverage`, `bestStudentPerformanceData`). -/
structure BestAccum where
  bestStudentName : String
  highestAverage : ℚ
  bestStudentPerformanceData : List ChartDataPoint
deriving DecidableEq

/-- The best-student scan: starting from `('', -1, [])`, a student replaces
the current best exactly when their average is strictly higher. -/
def bestStudentScan (sheetData : List StudentSheetData) (dates : List String) :
    BestAccum :=
  sheetData.foldl (fun acc student =>
    let avg := currentAverageIncludingPending student dates
    if acc.highestAverage < avg then
      ⟨student.studentName, avg, currentStudentChartData student dates⟩
    else acc) ⟨"", -1, []⟩

/-- `PendingActivityDetail` from `StudentPendingActivities.tsx`. -/
structure PendingActivityDetail where
  date : String
  topic : String
  grade : String
deriving DecidableEq

/-- The pending-activities computation of `StudentPendingActivities.tsx` for
one student: the in-range dates with an entry whose grade neither converts to
a number nor is qualitative after trimming; empty cells display as Vacío. -/
def pendingActivities (student : StudentSheetData) (allDates : List String)
    (startDate endDate : String) : List PendingActivityDetail :=
  let startIdx := jsIndexOf allDates startDate
  let endIdx := jsIndexOf allDates endDate
  if startIdx = -1 ∨ endIdx = -1 ∨ startIdx > endIdx then []
  else
    ((jsSlice allDates startIdx (endIdx + 1)).filter
        (fun date => (student.grades date).isSome)).filterMap (fun date =>
      (student.grades date).bind (fun activity =>
        let originalGrade := jsTrim activity.grade
        if (convertGradeToNumeric activity.grade).isNone = true ∧
            ¬ isQualitativeGrade originalGrade = true then
          some ⟨date, activity.topic,
            if originalGrade = "" then "Vacío" else originalGrade⟩
        else none))

/-- Spec vocabulary: a date has an entry in the student's grades mapping. -/
def hasEntry (student : StudentSheetData) (date : String) : Bool :=
  (student.grades date).isSome

/-- Spec vocabulary: the date's entry is present but uninterpretable. -/
def entryUninterpretable (student : StudentSheetData) (date : String) : Bool :=
  match student.grades date with
  | some a => (convertGradeToNumeric a.grade).isNone
  | none => false

/-- Spec vocabulary: the projection contribution of one selected date
(normalized value if interpretable, fallback 3 if uninterpretable,
0 if no entry). -/
def gradeContribution (student : StudentSheetData) (date : String) : ℚ :=
  match student.grades date with
  | some a => (convertGradeToNumeric a.grade).getD 3
  | none => 0

/-- Characterization of the student loop counters: activity count, missing
count and projection sum are pointwise functions of the selected dates. -/
theorem studentStats_spec (student : StudentSheetData) (dates : List String) :
    studentStats student dates =
      ⟨(dates.map (gradeContribution student)).sum,
       dates.countP (entryUninterpretable student),
       dates.countP (hasEntry student)⟩ := by
  have key : ∀ (ds : List String) (acc : ProjectionAccum),
      ds.foldl (projectionStep student) acc =
        ⟨acc.totalGradesForProjection + (ds.map (gradeContribution student)).sum,
         acc.missingActivitiesCount + ds.countP (entryUninterpretable student),
         acc.studentActivitiesCount + ds.countP (hasEntry student)⟩ := by
    intro ds
    induction ds with
    | nil => intro acc; simp
    | cons d ds ih =>
      intro acc
      rw [List.foldl_cons, ih]
      have hcontrib : (List.map (gradeContribution student) (d :: ds)).sum =
          gradeContribution student d + (List.map (gradeContribution student) ds).sum := by
        simp
      rw [hcontrib, List.countP_cons, List.countP_cons]
      unfold projectionStep gradeContribution entryUninterpretable hasEntry
      cases hg : student.grades d with
      | none =>
        simp [hg, ProjectionAccum.mk.injEq]
      | some a =>
        cases hc : convertGradeToNumeric a.grade with
        | none =>
          simp [hg, hc, ProjectionAccum.mk.injEq]
          and_intros <;> ring
        | some v =>
          simp [hg, hc, ProjectionAccum.mk.injEq]
          and_intros <;> ring
  have h := key dates ⟨0, 0, 0⟩
  simpa [studentStats] using h

/-- Single-update lemma for the first ingestion pass: indices whose column
dates all differ from `d` leave the map unchanged at `d`. -/
theorem vacFold_untouched (rows : List (List String)) (dates : List String) :
    ∀ (ks : List Nat) (m : String → Option Bool) (d : String),
      (∀ k ∈ ks, dates.getD k "" ≠ d) →
      (ks.foldl (vacStep rows dates) m) d = m d := by
  intro ks
  induction ks with
  | nil => intro m d _; rfl
  | cons k ks ih =>
    intro m d h
    rw [List.foldl_cons, ih _ _ (fun k2 hk2 => h k2 (List.mem_cons_of_mem _ hk2))]
    unfold vacStep
    rw [if_neg (fun he => h k (List.mem_cons_self _ _) he.symm)]

/-- The first ingestion pass stores, at a date occurring at exactly one
processed column, that column's classification. -/
theorem vacFold_unique (rows : List (List String)) (dates : List String) :
    ∀ (ks : List Nat) (m : String → Option Bool) (k0 : Nat) (d : String),
      ks.Nodup → k0 ∈ ks → dates.getD k0 "" = d →
      (∀ k ∈ ks, dates.getD k "" = d → k = k0) →
      (ks.foldl (vacStep rows dates) m) d = some (colHasValidGrade rows (k0 + 1)) := by
  intro ks
  induction ks with
  | nil => intro m k0 d _ hk0 _ _; exact absurd hk0 (List.not_mem_nil _)
  | cons k ks ih =>
    intro m k0 d hnd hk0 hd huniq
    rcases List.mem_cons.mp hk0 with rfl | hk0tl
    · rw [List.foldl_cons]
      rw [vacFold_untouched rows dates ks _ d ?_]
      · unfold vacStep
        rw [if_pos hd.symm]
      · intro k2 hk2 he
        have : k2 = k0 := huniq k2 (List.mem_cons_of_mem _ hk2) he
        subst this
        exact (List.nodup_cons.mp hnd).1 hk2
    · rw [List.foldl_cons]
      exact ih _ k0 d (List.nodup_cons.mp hnd).2 hk0tl hd
        (fun k2 hk2 he => huniq k2 (List.mem_cons_of_mem _ hk2) he)

/-- Counterexample to C7: two columns share the date label D.  Column 1 holds
an interpretable grade (7), yet the shared flag is overwritten by column 2
(all stray text), so D is flagged inactive and excluded from every record,
although column 1 has an interpretable cell. -/
theorem claim_C7_counterexample :
    colHasValidGrade [["A", "7", "x"]] 1 = true ∧
    validActivityColumns ["", "D", "D"] [["A", "7", "x"]] "D" = some false ∧
    (processXLSXSheetData [["", "D", "D"], ["", "T1", "T2"], ["A", "7", "x"]]).map
      (fun p => p.data.map (fun s => (s.grades "D").isSome)) = some [false] := by
  with_unfolding_all decide

/-- C7 (amended).  Provided the extracted date labels are pairwise distinct,
a date column is flagged active iff some student row holds a cell in that
column that normalizes to a number or is a qualitative grade (existential
classification); with duplicate labels the flag of the last column with that
label wins. -/
theorem claim_C7_existential_classification :
    ∀ (headers : List String) (rows : List (List String)) (k : Nat),
      (headerDates headers).Nodup → k < headers.length - 1 →
      (validActivityColumns headers rows ((headerDates headers).getD k "") = some true ↔
        ∃ row ∈ rows, ((convertGradeToNumeric (jsCell row (k + 1))).isSome = true ∨
          isQualitativeGrade (jsCell row (k + 1)) = true)) := by
  intro headers rows k hnd hk
  have hlen : (headerDates headers).length = headers.length - 1 := by
    unfold headerDates
    rw [List.length_map, List.length_drop]
  have hval : validActivityColumns headers rows ((headerDates headers).getD k "") =
      some (colHasValidGrade rows (k + 1)) := by
    unfold validActivityColumns
    refine vacFold_unique rows (headerDates headers) _ _ k _ (List.nodup_range _)
      (List.mem_range.mpr hk) rfl ?_
    intro k2 hk2 he
    have hk2' : k2 < (headerDates headers).length := by
      rw [hlen]; exact List.mem_range.mp hk2
    have hk' : k < (headerDates headers).length := by
      rw [hlen]; exact hk
    rw [List.getD_eq_getElem _ _ hk2', List.getD_eq_getElem _ _ hk'] at he
    exact (List.Nodup.getElem_inj_iff hnd).mp he
  rw [hval]
  unfold colHasValidGrade
  rw [Option.some.injEq, List.any_eq_true]
  simp only [Bool.or_eq_true]

/-- Witness for C7 (amended): a column with a single interpretable cell is
flagged active. -/
theorem claim_C7_existential_classification_witness :
    validActivityColumns ["", "D1"] [["A", "7"]] ((headerDates ["", "D1"]).getD 0 "")
      = some true :=
  (claim_C7_existential_classification ["", "D1"] [["A", "7"]] 0
      (by with_unfolding_all decide) (by with_unfolding_all decide)).mpr
    (by with_unfolding_all decide)

/-- Folding the second ingestion pass over any index list: the partial grades
map has an entry at `d` iff the accumulator has one or some processed column
carries the date `d` and `d` is flagged active. -/
theorem gradesFold_isSome (vac : String → Option Bool) (topics row : List String)
    (dates : List String) :
    ∀ (ks : List Nat) (m : String → Option StudentGradeEntry) (d : String),
      ((ks.foldl (gradesStep vac topics row dates) m) d).isSome = true ↔
        ((m d).isSome = true ∨ ∃ k ∈ ks, dates.getD k "" = d ∧ vac d = some true) := by
  intro ks
  induction ks with
  | nil => intro m d; simp
  | cons k ks ih =>
    intro m d
    rw [List.foldl_cons, ih]
    unfold gradesStep
    by_cases hv : vac (dates.getD k "") = some true
    · simp only [if_pos hv]
      by_cases hd : d = dates.getD k ""
      · constructor
        · intro _
          exact Or.inr ⟨k, List.mem_cons_self _ _, hd.symm, by rw [hd]; exact hv⟩
        · intro _
          exact Or.inl (by rw [if_pos hd]; rfl)
      · rw [if_neg hd]
        constructor
        · rintro (h | ⟨k2, hk2, hp⟩)
          · exact Or.inl h
          · exact Or.inr ⟨k2, List.mem_cons_of_mem _ hk2, hp⟩
        · rintro (h | ⟨k2, hk2, h1, h2⟩)
          · exact Or.inl h
          · rcases List.mem_cons.mp hk2 with rfl | hk3
            · exact absurd h1 (fun he => hd he.symm)
            · exact Or.inr ⟨k2, hk3, h1, h2⟩
    · rw [if_neg hv]
      constructor
      · rintro (h | ⟨k2, hk2, hp⟩)
        · exact Or.inl h
        · exact Or.inr ⟨k2, List.mem_cons_of_mem _ hk2, hp⟩
      · rintro (h | ⟨k2, hk2, h1, h2⟩)
        · exact Or.inl h
        · rcases List.mem_cons.mp hk2 with rfl | hk3
          · rw [h1] at hv; exact absurd h2 hv
          · exact Or.inr ⟨k2, hk3, h1, h2⟩

/-- Folding the first ingestion pass over any index list: the partial
classification map has an entry at `d` iff the accumulator has one or some
processed column carries the date `d`. -/
theorem vacFold_isSome (rows : List (List String)) (dates : List String) :
    ∀ (ks : List Nat) (m : String → Option Bool) (d : String),
      ((ks.foldl (vacStep rows dates) m) d).isSome = true ↔
        ((m d).isSome = true ∨ ∃ k ∈ ks, dates.getD k "" = d) := by
  intro ks
  induction ks with
  | nil => intro m d; simp
  | cons k ks ih =>
    intro m d
    rw [List.foldl_cons, ih]
    unfold vacStep
    by_cases hd : d = dates.getD k ""
    · constructor
      · intro _
        exact Or.inr ⟨k, List.mem_cons_self _ _, hd.symm⟩
      · intro _
        exact Or.inl (by rw [if_pos hd]; rfl)
    · rw [if_neg hd]
      constructor
      · rintro (h | ⟨k2, hk2, hp⟩)
        · exact Or.inl h
        · exact Or.inr ⟨k2, List.mem_cons_of_mem _ hk2, hp⟩
      · rintro (h | ⟨k2, hk2, h1⟩)
        · exact Or.inl h
        · rcases List.mem_cons.mp hk2 with rfl | hk3
          · exact absurd h1 (fun he => hd he.symm)
          · exact Or.inr ⟨k2, hk3, h1⟩

/-- Counterexample to C2: on a grid whose only activity column is active
(student B holds the grade 7), student A's empty cell in that column is still
stored, with the empty string as its raw grade. -/
theorem claim_C2_counterexample :
    (processXLSXSheetData [["", "D1"], ["", "T1"], ["A", ""], ["B", "7"]]).map
      (fun p => p.data.map (fun s => s.grades "D1")) =
    some [some ⟨"T1", ""⟩, some ⟨"T1", "7"⟩] := by
  with_unfolding_all decide

/-- C2 (amended).  For every ingested grid, a student record's grades mapping
contains an entry for a date iff that date is flagged as an active activity
column — independently of whether the student's own cell is empty; entries
for empty cells store the empty string as their raw grade. -/
theorem claim_C2_entry_iff_active_column :
    ∀ (grid : List (List String)) (s : StudentSheetData) (d : String),
      s ∈ sheetRecords grid →
      ((s.grades d).isSome = true ↔
        validActivityColumns (grid.getD 0 []) (grid.drop 2) d = some true) := by
  intro grid s d hs
  rw [sheetRecords, List.mem_filterMap] at hs
  obtain ⟨row, _, hf⟩ := hs
  by_cases hname : jsCell row 0 = ""
  · rw [if_pos hname] at hf
    exact absurd hf (by simp)
  · rw [if_neg hname] at hf
    have hgr : s.grades = studentGradesFor (grid.getD 0 []) (grid.getD 1 [])
        (validActivityColumns (grid.getD 0 []) (grid.drop 2)) row := by
      rw [← Option.some.inj hf]
    rw [hgr]
    unfold studentGradesFor
    rw [gradesFold_isSome]
    unfold validActivityColumns
    constructor
    · rintro (h | ⟨k, _, _, hvac⟩)
      · exact absurd h (by simp)
      · exact hvac
    · intro hvac
      have hsome : ((List.range ((grid.getD 0 []).length - 1)).foldl
          (vacStep (grid.drop 2) (headerDates (grid.getD 0 []))) (fun _ => none) d).isSome
          = true := by
        unfold validActivityColumns at hvac
        rw [hvac]
        rfl
      rw [vacFold_isSome] at hsome
      rcases hsome with h | ⟨k, hk, hkd⟩
      · exact absurd h (by simp)
      · exact Or.inr ⟨k, hk, hkd, hvac⟩

/-- Witness record for C2: student A of the counterexample grid. -/
def exStudentC2 : StudentSheetData :=
  ⟨"A", studentGradesFor ["", "D1"] ["", "T1"]
    (validActivityColumns ["", "D1"] [["A", ""], ["B", "7"]]) ["A", ""]⟩

/-- Witness for C2 (amended): student A has an entry for the active date D1
even though A's own cell there is empty. -/
theorem claim_C2_entry_iff_active_column_witness :
    (exStudentC2.grades "D1").isSome = true :=
  (claim_C2_entry_iff_active_column [["", "D1"], ["", "T1"], ["A", ""], ["B", "7"]]
      exStudentC2 "D1" (List.Mem.head _)).mpr
    (by with_unfolding_all decide)

/-- Concrete student of the worked example in C1: grades 9, uninterpretable,
6 over the three selected dates. -/
def exStudentC1 : StudentSheetData :=
  ⟨"Ana", fun d =>
    if d = "D1" then some ⟨"T1", "9"⟩
    else if d = "D2" then some ⟨"T2", ""⟩
    else if d = "D3" then some ⟨"T3", "6"⟩
    else none⟩

/-- C1.  The per-student projection: the activity count is the number of
selected dates with an entry, the missing count the number of uninterpretable
entries, the projection sum adds each interpretable entry's normalized value
and the fallback 3 per uninterpretable entry; the average is
`sum / count` (0 when the count is 0) formatted with `toFixed(2)`; grades
`[9, none, 6]` over three selected dates give sum 18, count 3, average
`"6.00"` and one missing activity. -/
theorem claim_C1_projection_average :
    (∀ student dates, (studentStats student dates).studentActivitiesCount =
        dates.countP (hasEntry student)) ∧
    (∀ student dates, (studentStats student dates).missingActivitiesCount =
        dates.countP (entryUninterpretable student)) ∧
    (∀ student dates, (studentStats student dates).totalGradesForProjection =
        (dates.map (gradeContribution student)).sum) ∧
    (∀ student dates, 0 < (studentStats student dates).studentActivitiesCount →
        currentAverageIncludingPending student dates =
          (studentStats student dates).totalGradesForProjection /
            ((studentStats student dates).studentActivitiesCount : ℚ)) ∧
    (∀ student dates, (studentStats student dates).studentActivitiesCount = 0 →
        currentAverageIncludingPending student dates = 0) ∧
    studentStats exStudentC1 ["D1", "D2", "D3"] = ⟨18, 1, 3⟩ ∧
    currentAverageStr exStudentC1 ["D1", "D2", "D3"] = "6.00" := by
  refine ⟨fun student dates => ?_, fun student dates => ?_, fun student dates => ?_,
    fun student dates h => ?_, fun student dates h => ?_, ?_, ?_⟩
  · rw [studentStats_spec]
  · rw [studentStats_spec]
  · rw [studentStats_spec]
  · simp only [currentAverageIncludingPending, if_pos h]
  · simp only [currentAverageIncludingPending, h]
    simp
  · with_unfolding_all decide
  · with_unfolding_all decide

/-- Witness for C1 at the worked example: the average equals sum / count. -/
theorem claim_C1_projection_average_witness :
    currentAverageIncludingPending exStudentC1 ["D1", "D2", "D3"] =
      (studentStats exStudentC1 ["D1", "D2", "D3"]).totalGradesForProjection /
        ((studentStats exStudentC1 ["D1", "D2", "D3"]).studentActivitiesCount : ℚ) :=
  claim_C1_projection_average.2.2.2.1 exStudentC1 ["D1", "D2", "D3"]
    (by with_unfolding_all decide)

/-- Counterexample to C3: the two copies of `convertGradeToNumeric` disagree
on the purely numeric string 9.5 (the section copy rescales everything above
9 by a factor 9/100, the app copy leaves everything up to 10 unchanged). -/
theorem claim_C3_counterexample :
    convertGradeToNumeric "9.5" = some (9.5 : ℚ) ∧
    convertGradeToNumericQAS "9.5" = some (0.855 : ℚ) ∧
    convertGradeToNumericQAS "9.5" ≠ convertGradeToNumeric "9.5" := by
  with_unfolding_all decide

/-- C3 (amended).  The two copies agree on every string whose uppercased form
does not parse as a number (including the qualitative codes) and on every
string parsing to a value at most 9; they disagree on every string parsing to
a value above 9. -/
theorem claim_C3_copies_agreement :
    (∀ s, jsParseFloat (jsToUpper s) = none →
      convertGradeToNumericQAS s = convertGradeToNumeric s) ∧
    (∀ s v, jsParseFloat (jsToUpper s) = some v → v ≤ 9 →
      convertGradeToNumericQAS s = convertGradeToNumeric s) ∧
    (∀ s v, jsParseFloat (jsToUpper s) = some v → 9 < v →
      convertGradeToNumericQAS s ≠ convertGradeToNumeric s) := by
  refine ⟨fun s hp => ?_, fun s v hp hv => ?_, fun s v hp hv => ?_⟩
  · by_cases h1 : jsToUpper s = "L"
    · simp [convertGradeToNumericQAS, convertGradeToNumeric, h1]
    · by_cases h2 : jsToUpper s = "ML"
      · simp [convertGradeToNumericQAS, convertGradeToNumeric, h1, h2]
      · by_cases h3 : jsToUpper s = "NL"
        · simp [convertGradeToNumericQAS, convertGradeToNumeric, h1, h2, h3]
        · simp [convertGradeToNumericQAS, convertGradeToNumeric, h1, h2, h3, hp]
  · by_cases h1 : jsToUpper s = "L"
    · simp [convertGradeToNumericQAS, convertGradeToNumeric, h1]
    · by_cases h2 : jsToUpper s = "ML"
      · simp [convertGradeToNumericQAS, convertGradeToNumeric, h1, h2]
      · by_cases h3 : jsToUpper s = "NL"
        · simp [convertGradeToNumericQAS, convertGradeToNumeric, h1, h2, h3]
        · have h9 : ¬ (9 : ℚ) < v := not_lt.mpr hv
          have h10 : ¬ (10 : ℚ) < v := not_lt.mpr (hv.trans (by norm_num))
          simp [convertGradeToNumericQAS, convertGradeToNumeric, h1, h2, h3, hp, h9, h10]
  · have h1 : jsToUpper s ≠ "L" := by
      intro h; rw [h] at hp
      have : jsParseFloat "L" = none := by with_unfolding_all decide
      rw [this] at hp; exact Option.noConfusion hp
    have h2 : jsToUpper s ≠ "ML" := by
      intro h; rw [h] at hp
      have : jsParseFloat "ML" = none := by with_unfolding_all decide
      rw [this] at hp; exact Option.noConfusion hp
    have h3 : jsToUpper s ≠ "NL" := by
      intro h; rw [h] at hp
      have : jsParseFloat "NL" = none := by with_unfolding_all decide
      rw [this] at hp; exact Option.noConfusion hp
    have hv0 : (0 : ℚ) < v := lt_trans (by norm_num) hv
    simp only [convertGradeToNumericQAS, convertGradeToNumeric, h1, h2, h3,
      if_false, hp, if_pos hv]
    by_cases h10 : (10 : ℚ) < v
    · simp only [if_pos h10, ne_eq, Option.some.injEq]
      intro he
      field_simp at he
      rcases he with h | h
      · norm_num at h
      · exact (ne_of_gt hv0) h
    · simp only [if_neg h10, ne_eq, Option.some.injEq]
      intro he
      field_simp at he
      rcases he with h | h
      · norm_num at h
      · exact (ne_of_gt hv0) h

/-- Witness for C3 (amended) on a string both copies leave unparsed. -/
theorem claim_C3_copies_agreement_witness :
    convertGradeToNumericQAS "abc" = convertGradeToNumeric "abc" :=
  claim_C3_copies_agreement.1 "abc" (by with_unfolding_all decide)

/-- Counterexample to C4: normalize produces values outside the canonical
interval, namely 10 for the cell 10 and 0.5 for the cell 0.5. -/
theorem claim_C4_counterexample :
    convertGradeToNumeric "10" = some 10 ∧
    convertGradeToNumeric "0.5" = some (0.5 : ℚ) ∧
    ¬ ((10 : ℚ) ≤ 9) ∧ ¬ ((1 : ℚ) ≤ 0.5) := by
  with_unfolding_all decide

/-- C4 (amended).  Normalize returns the uninterpretable sentinel or a
number; only the qualitative codes are guaranteed to land in the canonical
interval 1..9 (they map to 9, 6 or 3); parsed numeric values are passed
through unclamped (divided by 10 only above 10), so results below 1 and above
9 occur, e.g. for the cells 10 and 0.5. -/
theorem claim_C4_range_amended :
    (∀ s, isQualitativeGrade s = true →
      ∃ v, convertGradeToNumeric s = some v ∧ 1 ≤ v ∧ v ≤ 9) ∧
    convertGradeToNumeric "10" = some 10 ∧
    convertGradeToNumeric "0.5" = some (0.5 : ℚ) := by
  refine ⟨fun s hq => ?_, by with_unfolding_all decide, by with_unfolding_all decide⟩
  simp only [isQualitativeGrade, Bool.or_eq_true, beq_iff_eq] at hq
  rcases hq with (h | h) | h
  · exact ⟨9, by simp [convertGradeToNumeric, h], by norm_num, by norm_num⟩
  · refine ⟨6, ?_, by norm_num, by norm_num⟩
    have hne : jsToUpper s ≠ "L" := by rw [h]; decide
    simp [convertGradeToNumeric, h, hne]
  · refine ⟨3, ?_, by norm_num, by norm_num⟩
    have hne : jsToUpper s ≠ "L" := by rw [h]; decide
    have hne2 : jsToUpper s ≠ "ML" := by rw [h]; decide
    simp [convertGradeToNumeric, h, hne, hne2]

/-- Witness for C4 (amended) at the qualitative code L. -/
theorem claim_C4_range_amended_witness :
    ∃ v, convertGradeToNumeric "L" = some v ∧ 1 ≤ v ∧ v ≤ 9 :=
  claim_C4_range_amended.1 "L" (by with_unfolding_all decide)

/-- C6.  The normalization table: L maps to 9, ml to 6 (case-insensitive),
NL to 3, 85 to 8.5 (rescaled by value/100*10 because it exceeds 10), 7 to 7
(used as-is), and abc and the empty string to none; in general every
non-qualitative string parsing to `v` normalizes to `v / 100 * 10` when
`v > 10` and to `v` otherwise. -/
theorem claim_C6_normalization_table :
    convertGradeToNumeric "L" = some 9 ∧
    convertGradeToNumeric "ml" = some 6 ∧
    convertGradeToNumeric "NL" = some 3 ∧
    convertGradeToNumeric "85" = some (8.5 : ℚ) ∧
    convertGradeToNumeric "7" = some 7 ∧
    convertGradeToNumeric "abc" = none ∧
    convertGradeToNumeric "" = none ∧
    (∀ s v, isQualitativeGrade s = false → jsParseFloat (jsToUpper s) = some v →
      convertGradeToNumeric s = some (if 10 < v then v / 100 * 10 else v)) := by
  refine ⟨by with_unfolding_all decide, by with_unfolding_all decide,
    by with_unfolding_all decide, by with_unfolding_all decide,
    by with_unfolding_all decide, by with_unfolding_all decide,
    by with_unfolding_all decide, fun s v hq hp => ?_⟩
  simp only [isQualitativeGrade, Bool.or_eq_false_iff, beq_eq_false_iff_ne, ne_eq] at hq
  simp [convertGradeToNumeric, hq.1.1, hq.1.2, hq.2, hp]

/-- Witness for C6's general rescale clause at the percentage-style cell 85. -/
theorem claim_C6_normalization_table_witness :
    convertGradeToNumeric "85" = some (if 10 < (85 : ℚ) then (85 : ℚ) / 100 * 10 else 85) :=
  claim_C6_normalization_table.2.2.2.2.2.2.2 "85" 85
    (by with_unfolding_all decide) (by with_unfolding_all decide)

/-- Concrete student whose single grade averages to exactly 5. -/
def exStudentFive : StudentSheetData :=
  ⟨"Aldo", fun d => if d = "D1" then some ⟨"T1", "5"⟩ else none⟩

/-- Concrete student whose single grade averages to exactly 4.99. -/
def exStudentFourNN : StudentSheetData :=
  ⟨"Beto", fun d => if d = "D1" then some ⟨"T1", "4.99"⟩ else none⟩

/-- C5.  A student is appended to the at-risk list iff the projection average
is strictly below 5 and the activity count is strictly positive; the entry
carries the formatted average, the missing count and one `"topic (date)"`
string per selected date whose entry is present but uninterpretable; an
average of exactly 5 is not at risk, 4.99 is. -/
theorem claim_C5_at_risk_list :
    (∀ sheetData dates r, r ∈ studentsAtRisk sheetData dates ↔
      ∃ student ∈ sheetData,
        currentAverageIncludingPending student dates < 5 ∧
        0 < (studentStats student dates).studentActivitiesCount ∧
        r = ⟨student.studentName,
             toFixed2 (currentAverageIncludingPending student dates),
             (studentStats student dates).missingActivitiesCount,
             atRiskDetails student dates⟩) ∧
    (∀ student dates x, x ∈ atRiskDetails student dates ↔
      ∃ date ∈ dates, ∃ a, student.grades date = some a ∧
        convertGradeToNumeric a.grade = none ∧
        x = a.topic ++ " (" ++ date ++ ")") ∧
    studentsAtRisk [exStudentFive] ["D1"] = [] ∧
    studentsAtRisk [exStudentFourNN] ["D1"] = [⟨"Beto", "4.99", 0, []⟩] := by
  refine ⟨fun sheetData dates r => ?_, fun student dates x => ?_,
    by with_unfolding_all decide, by with_unfolding_all decide⟩
  · simp only [studentsAtRisk, List.mem_filterMap]
    constructor
    · rintro ⟨s, hs, hf⟩
      by_cases hc : currentAverageIncludingPending s dates < 5 ∧
          0 < (studentStats s dates).studentActivitiesCount
      · rw [if_pos hc] at hf
        exact ⟨s, hs, hc.1, hc.2, (Option.some.inj hf).symm⟩
      · rw [if_neg hc] at hf
        exact absurd hf (by simp)
    · rintro ⟨s, hs, h1, h2, hr⟩
      exact ⟨s, hs, by rw [if_pos ⟨h1, h2⟩, hr]⟩
  · simp only [atRiskDetails, List.mem_map, List.mem_filter]
    constructor
    · rintro ⟨d, ⟨hd, hp⟩, hx⟩
      cases hg : student.grades d with
      | none => rw [hg] at hp; exact absurd hp (by simp)
      | some a =>
        rw [hg] at hp
        refine ⟨d, hd, a, hg, ?_, ?_⟩
        · simpa using hp
        · rw [← hx]; simp [hg]
    · rintro ⟨d, hd, a, hg, hc, hx⟩
      refine ⟨d, ⟨hd, ?_⟩, ?_⟩
      · simp [hg, hc]
      · rw [hx]; simp [hg]

/-- Witness for C5 on the student with average 4.99. -/
theorem claim_C5_at_risk_list_witness :
    (⟨"Beto", "4.99", 0, []⟩ : StudentAtRisk) ∈ studentsAtRisk [exStudentFourNN] ["D1"] :=
  (claim_C5_at_risk_list.1 [exStudentFourNN] ["D1"] ⟨"Beto", "4.99", 0, []⟩).mpr
    ⟨exStudentFourNN, List.mem_singleton_self _,
      by with_unfolding_all decide, by with_unfolding_all decide,
      by with_unfolding_all decide⟩

/-- C10.  Numeric parsing is prefix-based: a cell whose leading characters
form a decimal literal normalizes to that prefix value (rescaled above 10),
e.g. 7abc to 7 and 3.5kg to 3.5; such entries are interpretable and therefore
never counted as missing (only uninterpretable entries are) and never listed
as pending activities. -/
theorem claim_C10_prefix_parsing :
    convertGradeToNumeric "7abc" = some 7 ∧
    convertGradeToNumeric "3.5kg" = some (3.5 : ℚ) ∧
    (∀ s v, isQualitativeGrade s = false → jsParseFloat (jsToUpper s) = some v →
      convertGradeToNumeric s = some (if 10 < v then v / 100 * 10 else v)) ∧
    (∀ student date a, student.grades date = some a →
      (convertGradeToNumeric a.grade).isSome = true →
      entryUninterpretable student date = false) ∧
    (∀ student dates, (studentStats student dates).missingActivitiesCount =
      dates.countP (entryUninterpretable student)) ∧
    (∀ student allDates startDate endDate p,
      p ∈ pendingActivities student allDates startDate endDate →
      ∃ a, student.grades p.date = some a ∧ convertGradeToNumeric a.grade = none) := by
  refine ⟨by with_unfolding_all decide, by with_unfolding_all decide,
    fun s v hq hp => ?_, fun student date a hg hsome => ?_,
    fun student dates => ?_, fun student allDates startDate endDate p hp => ?_⟩
  · simp only [isQualitativeGrade, Bool.or_eq_false_iff, beq_eq_false_iff_ne, ne_eq] at hq
    simp [convertGradeToNumeric, hq.1.1, hq.1.2, hq.2, hp]
  · cases hc : convertGradeToNumeric a.grade with
    | none => rw [hc] at hsome; exact absurd hsome (by simp)
    | some v => simp [entryUninterpretable, hg, hc]
  · rw [studentStats_spec]
  · simp only [pendingActivities] at hp
    split at hp
    · exact absurd hp (by simp)
    · rw [List.mem_filterMap] at hp
      obtain ⟨d, hd, hf⟩ := hp
      cases hg : student.grades d with
      | none => rw [hg] at hf; exact absurd hf (by simp)
      | some activity =>
        rw [hg, Option.some_bind] at hf
        by_cases hcond : (convertGradeToNumeric activity.grade).isNone = true ∧
            ¬ isQualitativeGrade (jsTrim activity.grade) = true
        · rw [if_pos hcond] at hf
          have hpd : p.date = d := by rw [← Option.some.inj hf]
          rw [hpd]
          exact ⟨activity, hg, Option.isNone_iff_eq_none.mp hcond.1⟩
        · rw [if_neg hcond] at hf
          exact absurd hf (by simp)

/-- Witness for C10 at the cell 7abc. -/
theorem claim_C10_prefix_parsing_witness :
    convertGradeToNumeric "7abc" = some (if 10 < (7 : ℚ) then (7 : ℚ) / 100 * 10 else 7) :=
  claim_C10_prefix_parsing.2.2.1 "7abc" 7
    (by with_unfolding_all decide) (by with_unfolding_all decide)

/-- `indexOf` returns -1 exactly for absent elements. -/
theorem jsIndexOf_eq_neg_one_iff (l : List String) (x : String) :
    jsIndexOf l x = -1 ↔ x ∉ l := by
  unfold jsIndexOf
  cases h : l.findIdx? (fun y => y = x) with
  | none =>
    constructor
    · intro _
      rw [List.findIdx?_eq_none_iff] at h
      intro hin
      have := h x hin
      simp at this
    · intro _; rfl
  | some i =>
    constructor
    · intro hcontra; simp at hcontra
    · intro hn
      exfalso
      have hnone : l.findIdx? (fun y => y = x) = none :=
        List.findIdx?_eq_none_iff.mpr (fun y hy => decide_eq_false (fun he => hn (he ▸ hy)))
      rw [hnone] at h
      exact Option.noConfusion h

theorem jsIndexOf_eq_coe (l : List String) (x : String) (i : Nat)
    (h : l.findIdx? (fun y => y = x) = some i) : jsIndexOf l x = (i : Int) := by
  unfold jsIndexOf; rw [h]

theorem jsIndexOf_of_ne_neg_one (l : List String) (x : String)
    (h : jsIndexOf l x ≠ -1) :
    ∃ i, l.findIdx? (fun y => y = x) = some i ∧ jsIndexOf l x = (i : Int) := by
  cases hf : l.findIdx? (fun y => y = x) with
  | none => exact absurd (by unfold jsIndexOf; rw [hf]) h
  | some i => exact ⟨i, rfl, by unfold jsIndexOf; rw [hf]⟩

/-- C8.  The date-range selection aborts (no snapshot) exactly when the start
or end date is missing from the axis or the start index exceeds the end
index; otherwise it yields the inclusive slice from the start index to the
end index, filtered to dates for which at least one student record has a
grades entry. -/
theorem claim_C8_range_selection :
    (∀ sheetData allDates startDate endDate,
      relevantDatesInSelectedRange sheetData allDates startDate endDate = none ↔
        (startDate ∉ allDates ∨ endDate ∉ allDates ∨
          ∃ i j, allDates.findIdx? (fun y => y = startDate) = some i ∧
            allDates.findIdx? (fun y => y = endDate) = some j ∧ j < i)) ∧
    (∀ sheetData allDates startDate endDate i j,
      allDates.findIdx? (fun y => y = startDate) = some i →
      allDates.findIdx? (fun y => y = endDate) = some j → i ≤ j →
      relevantDatesInSelectedRange sheetData allDates startDate endDate =
        some (((allDates.drop i).take (j + 1 - i)).filter
          (fun date => sheetData.any (fun student => (student.grades date).isSome)))) := by
  constructor
  · intro sheetData allDates startDate endDate
    simp only [relevantDatesInSelectedRange]
    by_cases h : jsIndexOf allDates startDate = -1 ∨ jsIndexOf allDates endDate = -1 ∨
        jsIndexOf allDates startDate > jsIndexOf allDates endDate
    · rw [if_pos h]
      simp only [true_iff]
      rcases h with h | h | h
      · exact Or.inl ((jsIndexOf_eq_neg_one_iff _ _).mp h)
      · exact Or.inr (Or.inl ((jsIndexOf_eq_neg_one_iff _ _).mp h))
      · by_cases h1 : jsIndexOf allDates startDate = -1
        · exact Or.inl ((jsIndexOf_eq_neg_one_iff _ _).mp h1)
        · by_cases h2 : jsIndexOf allDates endDate = -1
          · exact Or.inr (Or.inl ((jsIndexOf_eq_neg_one_iff _ _).mp h2))
          · obtain ⟨i, hi, hvi⟩ := jsIndexOf_of_ne_neg_one _ _ h1
            obtain ⟨j, hj, hvj⟩ := jsIndexOf_of_ne_neg_one _ _ h2
            refine Or.inr (Or.inr ⟨i, j, hi, hj, ?_⟩)
            rw [hvi, hvj] at h
            exact_mod_cast h
    · rw [if_neg h]
      push_neg at h
      obtain ⟨h1, h2, h3⟩ := h
      constructor
      · intro hc; exact absurd hc (by simp)
      · rintro (hm | hm | ⟨i, j, hi, hj, hlt⟩)
        · exact absurd ((jsIndexOf_eq_neg_one_iff _ _).mpr hm) h1
        · exact absurd ((jsIndexOf_eq_neg_one_iff _ _).mpr hm) h2
        · rw [jsIndexOf_eq_coe _ _ i hi, jsIndexOf_eq_coe _ _ j hj] at h3
          have : i ≤ j := by exact_mod_cast h3
          omega
  · intro sheetData allDates startDate endDate i j hi hj hij
    simp only [relevantDatesInSelectedRange, jsIndexOf_eq_coe _ _ i hi,
      jsIndexOf_eq_coe _ _ j hj]
    rw [if_neg (by push_neg; refine ⟨by omega, by omega, by omega⟩)]
    congr 1
    unfold jsSlice
    rw [List.take_drop]
    congr 3
    omega

/-- Concrete student used for the C8 witness. -/
def exStudentC8 : StudentSheetData :=
  ⟨"Cara", fun d => if d = "D1" then some ⟨"T1", "7"⟩ else none⟩

/-- Witness for C8: on the axis D1, D2 the full range selects the inclusive
slice filtered to dates with at least one entry. -/
theorem claim_C8_range_selection_witness :
    relevantDatesInSelectedRange [exStudentC8] ["D1", "D2"] "D1" "D2" =
      some (((["D1", "D2"].drop 0).take (1 + 1 - 0)).filter
        (fun date => [exStudentC8].any (fun student => (student.grades date).isSome))) :=
  claim_C8_range_selection.2 [exStudentC8] ["D1", "D2"] "D1" "D2" 0 1
    (by with_unfolding_all decide) (by with_unfolding_all decide) (by omega)

/-- The best-student scan's running maximum bounds every student's average
and never drops below the initial sentinel -1. -/
theorem bestStudentScan_le (dates : List String) :
    ∀ records : List StudentSheetData,
      (-1 : ℚ) ≤ (bestStudentScan records dates).highestAverage ∧
      ∀ t ∈ records, currentAverageIncludingPending t dates ≤
        (bestStudentScan records dates).highestAverage := by
  intro records
  induction records using List.reverseRecOn with
  | nil => exact ⟨le_refl _, by simp⟩
  | append_singleton l x ih =>
    have hstep : bestStudentScan (l ++ [x]) dates =
        (if (bestStudentScan l dates).highestAverage <
            currentAverageIncludingPending x dates then
          ⟨x.studentName, currentAverageIncludingPending x dates,
            currentStudentChartData x dates⟩
        else bestStudentScan l dates) := by
      unfold bestStudentScan
      rw [List.foldl_append, List.foldl_cons, List.foldl_nil]
    rw [hstep]
    by_cases hlt : (bestStudentScan l dates).highestAverage <
        currentAverageIncludingPending x dates
    · rw [if_pos hlt]
      refine ⟨le_of_lt (lt_of_le_of_lt ih.1 hlt), ?_⟩
      intro t ht
      rcases List.mem_append.mp ht with h | h
      · exact le_of_lt (lt_of_le_of_lt (ih.2 t h) hlt)
      · rw [List.mem_singleton.mp h]
    · rw [if_neg hlt]
      refine ⟨ih.1, ?_⟩
      intro t ht
      rcases List.mem_append.mp ht with h | h
      · exact ih.2 t h
      · rw [List.mem_singleton.mp h]
        exact not_lt.mp hlt

/-- If every student's average is at most the sentinel -1, the scan never
fires and keeps the empty initial accumulator. -/
theorem bestStudentScan_untouched (dates : List String) :
    ∀ records : List StudentSheetData,
      (∀ t ∈ records, currentAverageIncludingPending t dates ≤ -1) →
      bestStudentScan records dates = ⟨"", -1, []⟩ := by
  intro records
  induction records using List.reverseRecOn with
  | nil => intro _; rfl
  | append_singleton l x ih =>
    intro h
    unfold bestStudentScan at ih ⊢
    rw [List.foldl_append, List.foldl_cons, List.foldl_nil]
    rw [ih (fun t ht => h t (List.mem_append.mpr (Or.inl ht)))]
    rw [if_neg (not_lt.mpr (h x (List.mem_append.mpr (Or.inr (List.mem_singleton_self x)))))]

/-- When the scan's final maximum exceeds the sentinel, the accumulator holds
the name, average and chart series of some student, and every student before
that one has a strictly smaller average. -/
theorem bestStudentScan_found (dates : List String) :
    ∀ records : List StudentSheetData,
      -1 < (bestStudentScan records dates).highestAverage →
      ∃ pre s post, records = pre ++ s :: post ∧
        bestStudentScan records dates =
          ⟨s.studentName, currentAverageIncludingPending s dates,
            currentStudentChartData s dates⟩ ∧
        ∀ t ∈ pre, currentAverageIncludingPending t dates <
          currentAverageIncludingPending s dates := by
  intro records
  induction records using List.reverseRecOn with
  | nil => intro h; exact absurd h (by norm_num [bestStudentScan])
  | append_singleton l x ih =>
    intro h
    have hstep : bestStudentScan (l ++ [x]) dates =
        (if (bestStudentScan l dates).highestAverage <
            currentAverageIncludingPending x dates then
          ⟨x.studentName, currentAverageIncludingPending x dates,
            currentStudentChartData x dates⟩
        else bestStudentScan l dates) := by
      unfold bestStudentScan
      rw [List.foldl_append, List.foldl_cons, List.foldl_nil]
    by_cases hlt : (bestStudentScan l dates).highestAverage <
        currentAverageIncludingPending x dates
    · refine ⟨l, x, [], rfl, ?_, ?_⟩
      · rw [hstep, if_pos hlt]
      · intro t ht
        exact lt_of_le_of_lt ((bestStudentScan_le dates l).2 t ht) hlt
    · rw [hstep, if_neg hlt] at h ⊢
      obtain ⟨pre, s, post, hsplit, heq, hpre⟩ := ih h
      refine ⟨pre, s, post ++ [x], ?_, heq, hpre⟩
      rw [hsplit, List.append_assoc, List.cons_append]

/-- Counterexample to C9: a single student whose only cell parses to the
negative value -50 has the strictly highest average (being alone), yet the
scan never replaces the initial sentinel pair, so the best-student name stays
empty instead of naming that student. -/
theorem claim_C9_counterexample :
    currentAverageIncludingPending
      ⟨"X", fun d => if d = "D1" then some ⟨"T1", "-50"⟩ else none⟩ ["D1"] = -50 ∧
    (bestStudentScan
      [⟨"X", fun d => if d = "D1" then some ⟨"T1", "-50"⟩ else none⟩] ["D1"]).bestStudentName
      = "" := by
  with_unfolding_all decide

/-- C9 (amended).  Provided at least one student's average exceeds the
initial sentinel -1 (always the case when no cell parses to a negative
number), the scan's strict comparison selects the first student attaining the
maximum average: the best student's average bounds every student's average,
every earlier student has a strictly smaller average, and the snapshot's
best-student series is exactly that student's chart series. -/
theorem claim_C9_best_student_strict :
    ∀ (records : List StudentSheetData) (dates : List String),
      (∃ s ∈ records, (-1 : ℚ) < currentAverageIncludingPending s dates) →
      ∃ pre s post, records = pre ++ s :: post ∧
        (bestStudentScan records dates).bestStudentName = s.studentName ∧
        (bestStudentScan records dates).highestAverage =
          currentAverageIncludingPending s dates ∧
        (bestStudentScan records dates).bestStudentPerformanceData =
          currentStudentChartData s dates ∧
        (∀ t ∈ records, currentAverageIncludingPending t dates ≤
          currentAverageIncludingPending s dates) ∧
        (∀ t ∈ pre, currentAverageIncludingPending t dates <
          currentAverageIncludingPending s dates) := by
  intro records dates hex
  obtain ⟨s0, hs0, h0⟩ := hex
  have hmax : -1 < (bestStudentScan records dates).highestAverage :=
    lt_of_lt_of_le h0 ((bestStudentScan_le dates records).2 s0 hs0)
  obtain ⟨pre, s, post, hsplit, heq, hpre⟩ := bestStudentScan_found dates records hmax
  refine ⟨pre, s, post, hsplit, by rw [heq], by rw [heq], by rw [heq], ?_, hpre⟩
  intro t ht
  have := (bestStudentScan_le dates records).2 t ht
  rw [heq] at this
  exact this

/-- Tie witnesses for C9: two students with the same average 7. -/
def exStudentTieA : StudentSheetData :=
  ⟨"AnaT", fun d => if d = "D1" then some ⟨"T1", "7"⟩ else none⟩

/-- Second tie witness for C9. -/
def exStudentTieB : StudentSheetData :=
  ⟨"BetoT", fun d => if d = "D1" then some ⟨"T1", "7"⟩ else none⟩

/-- Witness for C9 (amended) on a two-student tie. -/
theorem claim_C9_best_student_strict_witness :
    ∃ pre s post, [exStudentTieA, exStudentTieB] = pre ++ s :: post ∧
      (bestStudentScan [exStudentTieA, exStudentTieB] ["D1"]).bestStudentName =
        s.studentName ∧
      (bestStudentScan [exStudentTieA, exStudentTieB] ["D1"]).highestAverage =
        currentAverageIncludingPending s ["D1"] ∧
      (bestStudentScan [exStudentTieA, exStudentTieB] ["D1"]).bestStudentPerformanceData =
        currentStudentChartData s ["D1"] ∧
      (∀ t ∈ [exStudentTieA, exStudentTieB], currentAverageIncludingPending t ["D1"] ≤
        currentAverageIncludingPending s ["D1"]) ∧
      (∀ t ∈ pre, currentAverageIncludingPending t ["D1"] <
        currentAverageIncludingPending s ["D1"]) :=
  claim_C9_best_student_strict [exStudentTieA, exStudentTieB] ["D1"]
    ⟨exStudentTieA, List.mem_cons_self _ _, by with_unfolding_all decide⟩
